import Mathlib

/-
  A shallow embedding of `src/python/zfs-snap.py`: a tool that creates a ZFS
  snapshot over a JSON-RPC-over-WebSocket channel and optionally prunes older
  snapshots sharing a naming prefix.

  The embedding models the pure selection algorithm of `prune_snapshots`
  (filter by prefix, sort by creation time descending, slice at `keep`) and
  the call/exit orchestration of `main`, `login`, `create_snapshot` and
  `prune_snapshots`.  Remote responses are parameters; the trace of issued
  RPC calls, the printed lines and the exit status are the observable output.
-/

namespace ZfsSnap

/-- A snapshot record as returned by `pool.snapshot.query`: the full name
`dataset@shortname`, the opaque identifier `snap["id"]`, and the raw creation
timestamp string `snap["properties"]["creation"]["rawvalue"]`. -/
structure SnapRecord where
  name : String
  id : String
  creationRaw : String
deriving DecidableEq, Repr

/-- Python `s.split(sep)` for a one-character separator, over char lists:
splits at every occurrence of `sep`, keeping empty fields, and yields `[s]`
when `sep` does not occur (`"".split("@") == [""]`). -/
def splitChars (sep : Char) : List Char → List (List Char)
  | [] => [[]]
  | c :: cs =>
    let r := splitChars sep cs
    if c = sep then [] :: r
    else
      match r with
      | [] => [[c]]
      | g :: gs => (c :: g) :: gs

/-- Python `full.split("@")` on a string. -/
def splitOnAt (full : String) : List String :=
  (splitChars '@' full.toList).map (fun cs => String.mk cs)

/-- Python `s.startswith(p)`, over char lists (first argument the string,
second the pattern). -/
def startsWithChars : List Char → List Char → Bool
  | _, [] => true
  | [], _ :: _ => false
  | c :: cs, p :: ps => c = p && startsWithChars cs ps

/-- Python `s.startswith(p)` on strings. -/
def pyStartsWith (s p : String) : Bool :=
  startsWithChars s.toList p.toList

/-- Accumulate the value of a decimal digit list; `none` on a non-digit. -/
def digitsVal (acc : Nat) : List Char → Option Nat
  | [] => some acc
  | c :: cs => if c.isDigit then digitsVal (10 * acc + (c.toNat - '0'.toNat)) cs else none

/-- Python `int(s)` restricted to an optional sign followed by one or more
decimal digits, the shapes a ZFS `creation.rawvalue` can take; malformed
input is `none` (Python raises `ValueError`). -/
def pyInt (s : String) : Option Int :=
  match s.toList with
  | [] => none
  | '-' :: cs => if cs.isEmpty then none else (digitsVal 0 cs).map (fun n => -(n : Int))
  | '+' :: cs => if cs.isEmpty then none else (digitsVal 0 cs).map (fun n => (n : Int))
  | cs => (digitsVal 0 cs).map (fun n => (n : Int))

/-- The two exceptions the filtering loop of `prune_snapshots` can raise:
`IndexError` from `full.split("@")[1]` and `ValueError` from `int(...)`. -/
inductive PruneErr where
  | indexErr
  | valueErr
deriving DecidableEq, Repr

/-- One entry of the `filtered` list: `(created, shortname, snap["id"])`. -/
abbrev Entry := Int × String × String

/-- The filtering loop of `prune_snapshots` (lines 58-64): walk the query
result in order; for each record derive `shortname = full.split("@")[1]`
(raising `IndexError` when the split has no second field), keep records whose
shortname starts with the prefix, parsing `creation.rawvalue` as an integer
(raising `ValueError` when malformed).  An exception aborts the whole loop
and discards the partial list. -/
def filterSnapshots (pfx : String) : List SnapRecord → Except PruneErr (List Entry)
  | [] => .ok []
  | snap :: rest =>
    match (splitOnAt snap.name)[1]? with
    | none => .error .indexErr
    | some shortname =>
      if pyStartsWith shortname pfx then
        match pyInt snap.creationRaw with
        | none => .error .valueErr
        | some created =>
          match filterSnapshots pfx rest with
          | .error e => .error e
          | .ok l => .ok ((created, shortname, snap.id) :: l)
      else filterSnapshots pfx rest

/-- Line 66, `filtered.sort(key=lambda x: x[0], reverse=True)`: CPython's
sort is stable, so with `reverse=True` the result is the unique permutation
that is non-increasing in the key with equal-key entries in original order;
`List.insertionSort` with the relation `b.1 ≤ a.1` computes exactly that
permutation (ties place the earlier element first). -/
def sortFiltered (l : List Entry) : List Entry :=
  List.insertionSort (fun a b => b.1 ≤ a.1) l

/-- Python `l[k:]` for an arbitrary integer `k` (a negative `k` counts from
the end, clamped at the start of the list). -/
def pySliceFrom (l : List α) (k : Int) : List α :=
  if 0 ≤ k then l.drop k.toNat else l.drop (((l.length : Int) + k).toNat)

/-- Python `l[:k]` for an arbitrary integer `k`. -/
def pySliceTo (l : List α) (k : Int) : List α :=
  if 0 ≤ k then l.take k.toNat else l.take (((l.length : Int) + k).toNat)

/-- The matching records in sorted (newest-first) order. -/
def sortedMatching (pfx : String) (snaps : List SnapRecord) : Except PruneErr (List Entry) :=
  (filterSnapshots pfx snaps).map sortFiltered

/-- Line 68, `to_delete = filtered[keep:]`: the doomed records. -/
def toDelete (pfx : String) (keep : Int) (snaps : List SnapRecord) :
    Except PruneErr (List Entry) :=
  (sortedMatching pfx snaps).map (fun l => pySliceFrom l keep)

/-- The retained records, `filtered[0:keep]`: the complement of `to_delete`
in the sorted list. -/
def retained (pfx : String) (keep : Int) (snaps : List SnapRecord) :
    Except PruneErr (List Entry) :=
  (sortedMatching pfx snaps).map (fun l => pySliceTo l keep)

/-- The RPC calls the program issues, as observable trace events. -/
inductive Call where
  | login (token : String)
  | create (dataset snapname : String)
  | query (dataset : String)
  | delete (id : String)
deriving DecidableEq, Repr

/-- The remote side, as far as the program inspects it: whether the login and
creation responses carry an `"error"` field, the created snapshot id reported
on success, and the query result list.  Delete responses are a separate
parameter of the run because the script never reads them. -/
structure Server where
  loginHasError : Bool
  createHasError : Bool
  createdId : String
  queryResult : List SnapRecord

/-- The parsed command line: positional `snapname`, `--dataset`, `--token`,
optional integer `--prune`, and `--prefix` (default `"backup-"`). -/
structure Args where
  snapname : String
  dataset : String
  token : String
  prune : Option Int
  pfx : String

/-- The observable result of a run: interpreter exit status, the list of
issued RPC calls in order, and the printed lines. -/
structure Outcome where
  exitCode : Nat
  calls : List Call
  output : List String
deriving DecidableEq, Repr

/-- `prune_snapshots` (lines 48-76): print the header, issue one query call,
run the selection, then one delete call and one `Deleting:` line per doomed
record in sorted order, and finally the completion notice.  The return value
of `ws_call` at line 73 is discarded, so `deleteResponses` is never
consulted.  An uncaught `IndexError`/`ValueError` from the filtering loop
terminates the interpreter with exit status 1 before any delete call. -/
def pruneSnapshots (dataset : String) (keep : Int) (pfx : String)
    (queryResult : List SnapRecord) (deleteResponses : Nat → Bool) :
    Nat × List Call × List String :=
  let header := "Pruning snapshots, keeping last " ++ toString keep ++
    " with prefix " ++ pfx
  match filterSnapshots pfx queryResult with
  | .error _ => (1, [Call.query dataset], [header])
  | .ok f =>
    let doomed := pySliceFrom (sortFiltered f) keep
    let _ := deleteResponses
    (0,
     Call.query dataset :: doomed.map (fun x => Call.delete x.2.2),
     header :: (doomed.map (fun x => "Deleting: " ++ x.2.1) ++ ["Prune completed."]))

/-- `main` (lines 116-126) composed with `login` and `create_snapshot`:
login (fatal on error), create (fatal on error), then prune only when
`args.prune` is truthy — a present and nonzero integer. -/
def runMain (args : Args) (srv : Server) (deleteResponses : Nat → Bool) : Outcome :=
  if srv.loginHasError then
    { exitCode := 1, calls := [Call.login args.token], output := ["Login failed:"] }
  else
    let calls1 := [Call.login args.token, Call.create args.dataset args.snapname]
    let out1 := ["Creating snapshot: " ++ args.snapname]
    if srv.createHasError then
      { exitCode := 1, calls := calls1, output := out1 ++ ["ERROR:"] }
    else
      let out2 := out1 ++ ["OK: " ++ srv.createdId]
      match args.prune with
      | none => { exitCode := 0, calls := calls1, output := out2 }
      | some n =>
        if n = 0 then { exitCode := 0, calls := calls1, output := out2 }
        else
          let r := pruneSnapshots args.dataset n args.pfx srv.queryResult deleteResponses
          { exitCode := r.1, calls := calls1 ++ r.2.1, output := out2 ++ r.2.2 }

/-- Line 62's derivation in isolation: `full.split("@")[1]`, `none` when the
split has no second field (Python raises `IndexError`). -/
def deriveShortname (full : String) : Option String :=
  (splitOnAt full)[1]?

/-- Modelled from the spec: the substring after the FIRST `@` — everything
following it, further `@`s included; `none` when no `@` occurs. -/
def shortnameAfterFirstAt (full : String) : Option String :=
  match splitOnAt full with
  | [] => none
  | [_] => none
  | _ :: rest => some (String.intercalate "@" rest)

/-- The code's actual derivation, named for comparison: the field strictly
between the first and second `@` (the whole remainder when exactly one `@`
occurs). -/
def shortnameSecondField (full : String) : Option String :=
  match splitOnAt full with
  | _ :: s :: _ => some s
  | _ => none

/-- The spec's worked scenario: four records, three with the `backup-`
prefix, creation times 100, 300, 500, 200. -/
def scenarioSnaps : List SnapRecord :=
  [⟨"tank@backup-A", "id-A", "100"⟩,
   ⟨"tank@backup-B", "id-B", "300"⟩,
   ⟨"tank@other-C", "id-C", "500"⟩,
   ⟨"tank@backup-D", "id-D", "200"⟩]

/-- The `filtered` list the scenario produces, in query order. -/
def scenarioFiltered : List Entry :=
  [(100, "backup-A", "id-A"), (300, "backup-B", "id-B"), (200, "backup-D", "id-D")]

/-- Two matching records, used to exercise negative `keep` values. -/
def twoSnaps : List SnapRecord :=
  [⟨"tank@backup-a", "id-a", "100"⟩, ⟨"tank@backup-b", "id-b", "200"⟩]

/-- A query result holding a record whose full name contains no `@`. -/
def atlessSnaps : List SnapRecord := [⟨"noatsign", "id-x", "100"⟩]

/-- A delete-response assignment under which every delete succeeds. -/
def allDeletesOk : Nat → Bool := fun _ => false

/-- A delete-response assignment under which every delete fails. -/
def allDeletesFail : Nat → Bool := fun _ => true

/-- A server that accepts the login and rejects the creation call. -/
def srvCreateErr : Server := ⟨false, true, "", []⟩

/-- A server that accepts login and creation and returns the scenario
records from the query. -/
def srvOk : Server := ⟨false, false, "id-new", scenarioSnaps⟩

/-- A typical invocation requesting pruning with `--prune 2`. -/
def argsPruneTwo : Args := ⟨"backup-x", "tank", "tok", some 2, "backup-"⟩

/-- The same invocation with `--prune 0`. -/
def argsPruneZero : Args := ⟨"backup-x", "tank", "tok", some 0, "backup-"⟩

/-! ### Helper lemmas -/

theorem splitChars_cons (sep c : Char) (cs : List Char) :
    splitChars sep (c :: cs) =
      if c = sep then [] :: splitChars sep cs
      else
        match splitChars sep cs with
        | [] => [[c]]
        | g :: gs => (c :: g) :: gs := rfl

theorem splitChars_of_not_mem {sep : Char} : ∀ {s : List Char}, sep ∉ s →
    splitChars sep s = [s] := by
  intro s
  induction s with
  | nil => intro _; rfl
  | cons c cs ih =>
    intro h
    rw [List.mem_cons] at h
    push_neg at h
    rw [splitChars_cons, if_neg (fun hc => h.1 hc.symm), ih h.2]

theorem splitChars_append (sep : Char) {pre : List Char} (s : List Char)
    (h : sep ∉ pre) :
    splitChars sep (pre ++ sep :: s) = pre :: splitChars sep s := by
  induction pre with
  | nil => rw [List.nil_append, splitChars_cons, if_pos rfl]
  | cons c cs ih =>
    rw [List.mem_cons] at h
    push_neg at h
    rw [List.cons_append, splitChars_cons, if_neg (fun hc => h.1 hc.symm),
      ih h.2]

theorem filterSnapshots_startsWith {pfx : String} :
    ∀ {snaps : List SnapRecord} {f : List Entry},
    filterSnapshots pfx snaps = .ok f → ∀ x ∈ f, pyStartsWith x.2.1 pfx = true := by
  intro snaps
  induction snaps with
  | nil =>
    intro f h x hx
    simp only [filterSnapshots] at h
    cases h
    cases hx
  | cons snap rest ih =>
    intro f h x hx
    simp only [filterSnapshots] at h
    split at h
    · cases h
    · rename_i shortname hsplit
      split at h
      · rename_i hstart
        split at h
        · cases h
        · rename_i created hparse
          split at h
          · cases h
          · rename_i l hrec
            cases h
            rcases List.mem_cons.mp hx with rfl | hx'
            · exact hstart
            · exact ih hrec x hx'
      · exact ih h x hx

theorem filterSnapshots_ok_all_have_at {pfx : String} :
    ∀ {snaps : List SnapRecord} {f : List Entry},
    filterSnapshots pfx snaps = .ok f → ∀ snap ∈ snaps, '@' ∈ snap.name.toList := by
  intro snaps
  induction snaps with
  | nil =>
    intro f _ snap hmem
    cases hmem
  | cons s rest ih =>
    intro f h snap hmem
    simp only [filterSnapshots] at h
    split at h
    · cases h
    · rename_i shortname hsplit
      rcases List.mem_cons.mp hmem with rfl | hmem'
      · by_contra hat
        rw [show splitOnAt snap.name =
            (splitChars '@' snap.name.toList).map (fun cs => String.mk cs) from rfl,
          splitChars_of_not_mem hat] at hsplit
        cases hsplit
      · split at h
        · split at h
          · cases h
          · split at h
            · cases h
            · rename_i l hrec
              exact ih hrec snap hmem'
        · exact ih h snap hmem'

theorem sortFiltered_perm (l : List Entry) : (sortFiltered l).Perm l :=
  List.perm_insertionSort _ l

theorem sortFiltered_sorted (l : List Entry) :
    List.Pairwise (fun a b : Entry => b.1 ≤ a.1) (sortFiltered l) := by
  haveI : IsTotal Entry (fun a b => b.1 ≤ a.1) := ⟨fun a b => le_total b.1 a.1⟩
  haveI : IsTrans Entry (fun a b => b.1 ≤ a.1) :=
    ⟨fun _ _ _ hab hbc => le_trans hbc hab⟩
  exact List.sorted_insertionSort _ l

theorem pySliceTo_append_pySliceFrom (l : List α) (k : Int) :
    pySliceTo l k ++ pySliceFrom l k = l := by
  by_cases hk : 0 ≤ k <;>
    simp [pySliceTo, pySliceFrom, hk, List.take_append_drop]

theorem mem_of_mem_pySliceTo {l : List α} {k : Int} {x : α}
    (h : x ∈ pySliceTo l k) : x ∈ l := by
  unfold pySliceTo at h
  split at h
  · exact List.take_subset _ _ h
  · exact List.take_subset _ _ h

theorem mem_of_mem_pySliceFrom {l : List α} {k : Int} {x : α}
    (h : x ∈ pySliceFrom l k) : x ∈ l := by
  unfold pySliceFrom at h
  split at h
  · exact List.drop_subset _ _ h
  · exact List.drop_subset _ _ h

theorem query_mem_pruneSnapshots (dataset pfx : String) (keep : Int)
    (qr : List SnapRecord) (d : Nat → Bool) :
    Call.query dataset ∈ (pruneSnapshots dataset keep pfx qr d).2.1 := by
  unfold pruneSnapshots
  split <;> simp

/-! ### Claim theorems -/

/-- C1: records whose shortname does not start with the configured prefix
are excluded from the pruning computation entirely: whenever the filtering
loop succeeds, every retained entry and every doomed entry has a shortname
starting with the prefix, and every delete call the pruner issues targets
the id of an entry whose shortname starts with the prefix — so a
non-matching record is neither retained nor doomed nor deleted, for every
integer `keep`. -/
theorem pruner_ignores_nonmatching (pfx : String) (keep : Int)
    (snaps : List SnapRecord) (f : List Entry)
    (h : filterSnapshots pfx snaps = .ok f) :
    (∀ x ∈ pySliceTo (sortFiltered f) keep, pyStartsWith x.2.1 pfx = true) ∧
    (∀ x ∈ pySliceFrom (sortFiltered f) keep, pyStartsWith x.2.1 pfx = true) ∧
    (∀ dataset : String, ∀ d : Nat → Bool, ∀ i : String,
      Call.delete i ∈ (pruneSnapshots dataset keep pfx snaps d).2.1 →
      ∃ x ∈ f, x.2.2 = i ∧ pyStartsWith x.2.1 pfx = true) := by
  have hall : ∀ x ∈ sortFiltered f, pyStartsWith x.2.1 pfx = true := fun x hx =>
    filterSnapshots_startsWith h x ((sortFiltered_perm f).mem_iff.mp hx)
  refine ⟨fun x hx => hall x (mem_of_mem_pySliceTo hx),
          fun x hx => hall x (mem_of_mem_pySliceFrom hx), ?_⟩
  intro dataset d i hi
  unfold pruneSnapshots at hi
  rw [h] at hi
  simp only [List.mem_cons, List.mem_map, reduceCtorEq, false_or] at hi
  obtain ⟨x, hx, hxi⟩ := hi
  have hxs : x ∈ sortFiltered f := mem_of_mem_pySliceFrom hx
  refine ⟨x, (sortFiltered_perm f).mem_iff.mp hxs, ?_, hall x hxs⟩
  exact congrArg (fun c => match c with | Call.delete j => j | _ => "") hxi

/-- C1 witness: the theorem at the worked scenario with `keep = 2`. -/
theorem pruner_ignores_nonmatching_witness :
    (∀ x ∈ pySliceTo (sortFiltered scenarioFiltered) 2,
      pyStartsWith x.2.1 "backup-" = true) ∧
    (∀ x ∈ pySliceFrom (sortFiltered scenarioFiltered) 2,
      pyStartsWith x.2.1 "backup-" = true) ∧
    (∀ dataset : String, ∀ d : Nat → Bool, ∀ i : String,
      Call.delete i ∈ (pruneSnapshots dataset 2 "backup-" scenarioSnaps d).2.1 →
      ∃ x ∈ scenarioFiltered, x.2.2 = i ∧ pyStartsWith x.2.1 "backup-" = true) :=
  pruner_ignores_nonmatching "backup-" 2 scenarioSnaps scenarioFiltered rfl

/-- C2 counterexample: for the name `"tank@backup-a@extra"`, which contains
two `@`s, the code derives `"backup-a"` — not `"backup-a@extra"`, the
substring after the first `@` that the claim asserts. -/
theorem shortname_multiple_at_counterexample :
    deriveShortname "tank@backup-a@extra" = some "backup-a" ∧
    shortnameAfterFirstAt "tank@backup-a@extra" = some "backup-a@extra" ∧
    deriveShortname "tank@backup-a@extra" ≠
      shortnameAfterFirstAt "tank@backup-a@extra" :=
  ⟨rfl, rfl, by decide⟩

/-- C2 (amended): the shortname the pruner derives equals the field strictly
between the first and second `@` of the full name (the whole remainder when
exactly one `@` occurs); in particular, for a well-formed name
`dataset@shortname` whose two parts contain no further `@`, it is exactly
the substring after the `@`. -/
theorem shortname_between_first_and_second_at (full : String) :
    deriveShortname full = shortnameSecondField full ∧
    (∀ pre s : List Char, '@' ∉ pre → '@' ∉ s →
      full.toList = pre ++ '@' :: s → deriveShortname full = some (String.mk s)) := by
  constructor
  · unfold deriveShortname shortnameSecondField
    cases hs : splitOnAt full with
    | nil => rfl
    | cons a t =>
      cases t with
      | nil => simp
      | cons b t2 => simp
  · intro pre s hpre hs hfull
    unfold deriveShortname splitOnAt
    rw [hfull, splitChars_append _ _ hpre, splitChars_of_not_mem hs]
    rfl

/-- C2 witness: the amended theorem at the well-formed name
`"tank@backup-x"`. -/
theorem shortname_between_first_and_second_at_witness :
    deriveShortname "tank@backup-x" = shortnameSecondField "tank@backup-x" ∧
    deriveShortname "tank@backup-x" = some (String.mk "backup-x".toList) :=
  ⟨(shortname_between_first_and_second_at "tank@backup-x").1,
   (shortname_between_first_and_second_at "tank@backup-x").2
     "tank".toList "backup-x".toList (by decide) (by decide) (by decide)⟩

/-- C3 counterexample: with `keep = -1` (so `keep ≤ 0`) and two matching
records, Python's negative slicing retains the newest record and dooms only
the oldest — the retained set is not empty and not every matching record is
doomed, refuting the claim's `keep ≤ 0` case. -/
theorem negative_keep_counterexample_retention :
    (-1 : Int) ≤ 0 ∧
    retained "backup-" (-1) twoSnaps = .ok [(200, "backup-b", "id-b")] ∧
    toDelete "backup-" (-1) twoSnaps = .ok [(100, "backup-a", "id-a")] :=
  ⟨by decide, rfl, rfl⟩

/-- C3 (amended): if `keep = 0`, nothing is retained and the doomed list is
the whole sorted matching list (every matching record is doomed); if
`keep ≥` the number of matching records, nothing is doomed.  (For negative
`keep`, Python slice semantics instead doom only the last `min(|keep|, n)`
sorted records.) -/
theorem keep_zero_dooms_all_and_large_keep_dooms_none (pfx : String)
    (keep : Int) (snaps : List SnapRecord) (f : List Entry)
    (h : filterSnapshots pfx snaps = .ok f) :
    (keep = 0 → retained pfx keep snaps = .ok [] ∧
      toDelete pfx keep snaps = .ok (sortFiltered f) ∧ (sortFiltered f).Perm f) ∧
    ((f.length : Int) ≤ keep → toDelete pfx keep snaps = .ok []) := by
  constructor
  · rintro rfl
    refine ⟨?_, ?_, sortFiltered_perm f⟩
    · unfold retained sortedMatching
      rw [h]
      simp [Except.map, pySliceTo]
    · unfold toDelete sortedMatching
      rw [h]
      simp [Except.map, pySliceFrom]
  · intro hk
    have h0 : (0 : Int) ≤ keep := le_trans (Int.natCast_nonneg f.length) hk
    have hlen : (sortFiltered f).length ≤ keep.toNat := by
      rw [(sortFiltered_perm f).length_eq]
      omega
    unfold toDelete sortedMatching
    rw [h]
    simp [Except.map, pySliceFrom, h0, List.drop_eq_nil_of_le hlen]

/-- C3 witness: `keep = 0` dooms all three scenario records and retains
none; `keep = 5 ≥ 3` dooms none. -/
theorem keep_zero_dooms_all_and_large_keep_dooms_none_witness :
    (retained "backup-" 0 scenarioSnaps = .ok [] ∧
      toDelete "backup-" 0 scenarioSnaps = .ok (sortFiltered scenarioFiltered) ∧
      (sortFiltered scenarioFiltered).Perm scenarioFiltered) ∧
    toDelete "backup-" 5 scenarioSnaps = .ok [] :=
  ⟨(keep_zero_dooms_all_and_large_keep_dooms_none "backup-" 0 scenarioSnaps
      scenarioFiltered rfl).1 rfl,
   (keep_zero_dooms_all_and_large_keep_dooms_none "backup-" 5 scenarioSnaps
      scenarioFiltered rfl).2 (by decide)⟩

/-- C4 counterexample: with `keep = -1` and two matching records the
retained list has one element while `max(keep, 0) = 0`, violating the
claimed bound `retained.length ≤ max(keep, 0)`. -/
theorem negative_keep_counterexample_bound :
    (retained "backup-" (-1) twoSnaps).map List.length = .ok 1 ∧
    ¬ ((1 : Int) ≤ max (-1 : Int) 0) :=
  ⟨rfl, by decide⟩

/-- C4 (amended): for every integer `keep` the partition is exact —
`retained.length + doomed.length = matching.length`; the bound
`retained.length ≤ max(keep, 0)` holds whenever `keep ≥ 0` (for negative
`keep` it fails, since Python slicing retains all but the last `|keep|`
records). -/
theorem partition_length_identity (pfx : String) (keep : Int)
    (snaps : List SnapRecord) (f r d : List Entry)
    (h : filterSnapshots pfx snaps = .ok f)
    (hr : retained pfx keep snaps = .ok r)
    (hd : toDelete pfx keep snaps = .ok d) :
    r.length + d.length = f.length ∧
    (0 ≤ keep → (r.length : Int) ≤ max keep 0) := by
  unfold retained sortedMatching at hr
  rw [h] at hr
  simp only [Except.map] at hr
  cases hr
  unfold toDelete sortedMatching at hd
  rw [h] at hd
  simp only [Except.map] at hd
  cases hd
  constructor
  · have hl : (pySliceTo (sortFiltered f) keep).length +
        (pySliceFrom (sortFiltered f) keep).length = (sortFiltered f).length := by
      rw [← List.length_append, pySliceTo_append_pySliceFrom]
    rw [(sortFiltered_perm f).length_eq] at hl
    exact hl
  · intro hk
    rw [show pySliceTo (sortFiltered f) keep = (sortFiltered f).take keep.toNat from by
      unfold pySliceTo; rw [if_pos hk]]
    rw [List.length_take]
    calc ((keep.toNat ⊓ (sortFiltered f).length : Nat) : Int)
        ≤ (keep.toNat : Int) := by exact_mod_cast min_le_left _ _
      _ = keep := Int.toNat_of_nonneg hk
      _ ≤ max keep 0 := le_max_left _ _

/-- C4 witness: the identity and the bound at the worked scenario with
`keep = 2`: 2 retained + 1 doomed = 3 matching, and 2 ≤ max(2, 0). -/
theorem partition_length_identity_witness :
    (([(300, "backup-B", "id-B"), (200, "backup-D", "id-D")] : List Entry).length +
      ([(100, "backup-A", "id-A")] : List Entry).length = scenarioFiltered.length) ∧
    ((([(300, "backup-B", "id-B"), (200, "backup-D", "id-D")] :
        List Entry).length : Int) ≤ max 2 0) :=
  ⟨(partition_length_identity "backup-" 2 scenarioSnaps scenarioFiltered
      [(300, "backup-B", "id-B"), (200, "backup-D", "id-D")]
      [(100, "backup-A", "id-A")] rfl rfl rfl).1,
   (partition_length_identity "backup-" 2 scenarioSnaps scenarioFiltered
      [(300, "backup-B", "id-B"), (200, "backup-D", "id-D")]
      [(100, "backup-A", "id-A")] rfl rfl rfl).2 (by decide)⟩

/-- C5: the worked scenario.  Records `(backup-A, 100)`, `(backup-B, 300)`,
`(other-C, 500)`, `(backup-D, 200)` with prefix `backup-` and `keep = 2`
give matching = A, B, D; sorted = B(300), D(200), A(100); retained =
{B, D}; doomed = {A}; and the pruner issues a delete call for A's id and
for no other record. -/
theorem worked_scenario :
    filterSnapshots "backup-" scenarioSnaps = .ok scenarioFiltered ∧
    sortedMatching "backup-" scenarioSnaps =
      .ok [(300, "backup-B", "id-B"), (200, "backup-D", "id-D"),
           (100, "backup-A", "id-A")] ∧
    retained "backup-" 2 scenarioSnaps =
      .ok [(300, "backup-B", "id-B"), (200, "backup-D", "id-D")] ∧
    toDelete "backup-" 2 scenarioSnaps = .ok [(100, "backup-A", "id-A")] ∧
    (pruneSnapshots "tank" 2 "backup-" scenarioSnaps allDeletesOk).2.1 =
      [Call.query "tank", Call.delete "id-A"] :=
  ⟨rfl, rfl, rfl, rfl, rfl⟩

/-- C6: the sorted sequence is monotonically non-increasing in parsed
creation time (newest first), and the sort is deterministic: equal inputs
give equal outputs, and re-sorting the sorted sequence leaves it
unchanged. -/
theorem sort_descending_and_deterministic (f : List Entry) :
    List.Pairwise (fun a b : Entry => b.1 ≤ a.1) (sortFiltered f) ∧
    (∀ g : List Entry, g = f → sortFiltered g = sortFiltered f) ∧
    sortFiltered (sortFiltered f) = sortFiltered f := by
  refine ⟨sortFiltered_sorted f, fun g hg => by rw [hg], ?_⟩
  exact List.Sorted.insertionSort_eq (sortFiltered_sorted f)

/-- C6 witness: the theorem at the scenario's filtered list. -/
theorem sort_descending_and_deterministic_witness :
    List.Pairwise (fun a b : Entry => b.1 ≤ a.1) (sortFiltered scenarioFiltered) ∧
    sortFiltered scenarioFiltered = sortFiltered scenarioFiltered ∧
    sortFiltered (sortFiltered scenarioFiltered) = sortFiltered scenarioFiltered :=
  ⟨(sort_descending_and_deterministic scenarioFiltered).1,
   (sort_descending_and_deterministic scenarioFiltered).2.1 scenarioFiltered rfl,
   (sort_descending_and_deterministic scenarioFiltered).2.2⟩

/-- C7: if the snapshot-creation response contains an `error` field, the
process terminates with exit status 1 and the pruning step is never
reached: the run issues no query call and no delete call. -/
theorem create_error_aborts (args : Args) (srv : Server) (d : Nat → Bool)
    (h : srv.createHasError = true) :
    (runMain args srv d).exitCode = 1 ∧
    (∀ ds, Call.query ds ∉ (runMain args srv d).calls) ∧
    (∀ i, Call.delete i ∉ (runMain args srv d).calls) := by
  refine ⟨?_, fun ds => ?_, fun i => ?_⟩ <;>
    cases hl : srv.loginHasError <;> simp [runMain, hl, h]

/-- C7 witness: a server that accepts login but rejects creation, on an
invocation that requested pruning. -/
theorem create_error_aborts_witness :
    (runMain argsPruneTwo srvCreateErr allDeletesOk).exitCode = 1 ∧
    (∀ ds, Call.query ds ∉ (runMain argsPruneTwo srvCreateErr allDeletesOk).calls) ∧
    (∀ i, Call.delete i ∉ (runMain argsPruneTwo srvCreateErr allDeletesOk).calls) :=
  create_error_aborts argsPruneTwo srvCreateErr allDeletesOk rfl

/-- C8: for every doomed record the pruner issues exactly one delete call,
in sorted (descending creation-time) order — the call trace is the query
followed by exactly the doomed entries' ids; the whole run is independent
of the delete responses (they are never inspected), so a delete error
neither aborts the remaining deletions nor changes the exit status, and the
completion notice is printed regardless. -/
theorem delete_calls_exact_and_responses_ignored (dataset pfx : String)
    (keep : Int) (qr : List SnapRecord) (d d' : Nat → Bool) (f : List Entry)
    (h : filterSnapshots pfx qr = .ok f) :
    (pruneSnapshots dataset keep pfx qr d).2.1 =
      Call.query dataset ::
        (pySliceFrom (sortFiltered f) keep).map (fun x => Call.delete x.2.2) ∧
    pruneSnapshots dataset keep pfx qr d = pruneSnapshots dataset keep pfx qr d' ∧
    (pruneSnapshots dataset keep pfx qr d).1 = 0 ∧
    "Prune completed." ∈ (pruneSnapshots dataset keep pfx qr d).2.2 := by
  unfold pruneSnapshots
  rw [h]
  refine ⟨rfl, rfl, rfl, ?_⟩
  simp

/-- C8 witness: the theorem at the worked scenario, comparing a run where
every delete succeeds with one where every delete fails. -/
theorem delete_calls_exact_and_responses_ignored_witness :
    (pruneSnapshots "tank" 2 "backup-" scenarioSnaps allDeletesOk).2.1 =
      Call.query "tank" ::
        (pySliceFrom (sortFiltered scenarioFiltered) 2).map
          (fun x => Call.delete x.2.2) ∧
    pruneSnapshots "tank" 2 "backup-" scenarioSnaps allDeletesOk =
      pruneSnapshots "tank" 2 "backup-" scenarioSnaps allDeletesFail ∧
    (pruneSnapshots "tank" 2 "backup-" scenarioSnaps allDeletesOk).1 = 0 ∧
    "Prune completed." ∈
      (pruneSnapshots "tank" 2 "backup-" scenarioSnaps allDeletesOk).2.2 :=
  delete_calls_exact_and_responses_ignored "tank" "backup-" 2 scenarioSnaps
    allDeletesOk allDeletesFail scenarioFiltered rfl

/-- C9: invoked with `--prune 0` the pruning pass is skipped entirely — no
query call and no delete call are made — because `main` tests the keep
value for truthiness; the query call happens only when a nonzero prune
count is given (and login and creation succeeded). -/
theorem prune_zero_skips_pruning (args : Args) (srv : Server) (d : Nat → Bool) :
    (args.prune = some 0 →
      (∀ ds, Call.query ds ∉ (runMain args srv d).calls) ∧
      (∀ i, Call.delete i ∉ (runMain args srv d).calls)) ∧
    (∀ n : Int, args.prune = some n → n ≠ 0 → srv.loginHasError = false →
      srv.createHasError = false →
      Call.query args.dataset ∈ (runMain args srv d).calls) := by
  constructor
  · intro hp
    refine ⟨fun ds => ?_, fun i => ?_⟩ <;>
      cases hl : srv.loginHasError <;> cases hc : srv.createHasError <;>
        simp [runMain, hl, hc, hp]
  · intro n hp hn hl hc
    simp only [runMain, hl, hc, hp, Bool.false_eq_true, if_false, if_neg hn]
    exact List.mem_append_right _ (query_mem_pruneSnapshots _ _ _ _ _)

/-- C9 witness: `--prune 0` issues no query and no delete against a healthy
server, while `--prune 2` issues the query. -/
theorem prune_zero_skips_pruning_witness :
    (∀ ds, Call.query ds ∉ (runMain argsPruneZero srvOk allDeletesOk).calls) ∧
    (∀ i, Call.delete i ∉ (runMain argsPruneZero srvOk allDeletesOk).calls) ∧
    Call.query argsPruneTwo.dataset ∈ (runMain argsPruneTwo srvOk allDeletesOk).calls :=
  ⟨((prune_zero_skips_pruning argsPruneZero srvOk allDeletesOk).1 rfl).1,
   ((prune_zero_skips_pruning argsPruneZero srvOk allDeletesOk).1 rfl).2,
   (prune_zero_skips_pruning argsPruneTwo srvOk allDeletesOk).2 2 rfl
     (by decide) rfl rfl⟩

/-- C10: a query-result record whose full name contains no `@` is not
ignored: the shortname derivation fails, so the filtering loop can never
succeed, and the pruning pass aborts with exit status 1 without issuing any
delete call (in particular none for records after the offending one). -/
theorem missing_at_aborts_prune (dataset pfx : String) (keep : Int)
    (qr : List SnapRecord) (d : Nat → Bool) (snap : SnapRecord)
    (hmem : snap ∈ qr) (hat : '@' ∉ snap.name.toList) :
    (∀ f, filterSnapshots pfx qr ≠ .ok f) ∧
    (pruneSnapshots dataset keep pfx qr d).1 = 1 ∧
    (∀ i, Call.delete i ∉ (pruneSnapshots dataset keep pfx qr d).2.1) := by
  have hne : ∀ f, filterSnapshots pfx qr ≠ .ok f := fun f hf =>
    hat (filterSnapshots_ok_all_have_at hf snap hmem)
  refine ⟨hne, ?_, fun i => ?_⟩ <;>
    cases hfe : filterSnapshots pfx qr with
    | error e => simp [pruneSnapshots, hfe]
    | ok f => exact absurd hfe (hne f)

/-- C10 witness: a one-record query result whose name `"noatsign"` has no
`@`. -/
theorem missing_at_aborts_prune_witness :
    (∀ f, filterSnapshots "backup-" atlessSnaps ≠ .ok f) ∧
    (pruneSnapshots "tank" 2 "backup-" atlessSnaps allDeletesOk).1 = 1 ∧
    (∀ i, Call.delete i ∉
      (pruneSnapshots "tank" 2 "backup-" atlessSnaps allDeletesOk).2.1) :=
  missing_at_aborts_prune "tank" "backup-" 2 atlessSnaps allDeletesOk
    ⟨"noatsign", "id-x", "100"⟩ (by decide) (by decide)

end ZfsSnap
